import Mathlib

/-!
Shallow embedding of the inkjet build pipeline (src/build.rs) and proofs of
the specified properties.

The build script reads a manifest (src/languages.toml) into a list of
`Language` descriptors, optionally runs a fetch-and-generate pass
(gated on the INKJET_REBUILD_LANGS environment variable), and compiles
every language with cc.  Filesystems are modelled as functions from path
strings to optional contents (existence is `Option.isSome`), external
process outcomes as an environment record, and the effectful drivers as
pure functions producing traces or `Except` results.
-/

namespace Inkjet

/-- A language descriptor, as deserialized from `src/languages.toml`
(src/build.rs, `struct Language`, lines 99-106): `name` and `repo` are
plain required fields, `aliases` has a serde default of the empty list,
and `command` is an `Option`. -/
structure Language where
  name : String
  repo : String
  aliases : List String
  command : Option String
deriving DecidableEq

/-- A raw manifest entry before deserialization: each field either present
or absent in the TOML table. -/
structure RawEntry where
  name : Option String
  repo : Option String
  aliases : Option (List String)
  command : Option String
deriving DecidableEq

/-- Deserialization of one manifest entry, following the serde derive on
`struct Language` (src/build.rs lines 99-106): `name : String` and
`repo : String` are unconditionally required fields and their absence is a
parse error; `aliases` defaults to the empty list via `#[serde(default)]`;
`command : Option<String>` is optional. -/
def parseLanguage (e : RawEntry) : Except String Language :=
  match e.name with
  | none => .error "missing field name"
  | some n =>
    match e.repo with
    | none => .error "missing field repo"
    | some r => .ok ⟨n, r, e.aliases.getD [], e.command⟩

/-! ## Fetch orchestrator (src/build.rs, `download_langs` and `Language::download`) -/

/-- An external command line: program plus argument vector. -/
structure Cmd where
  program : String
  args : List String
deriving DecidableEq

/-- Per-language staging path `languages/temp/<name>`. -/
def stagingPath (l : Language) : String := "languages/temp/" ++ l.name

/-- Staged grammar-source subtree `languages/temp/<name>/src`
(src/build.rs line 45). -/
def srcSubtree (l : Language) : String := "languages/temp/" ++ l.name ++ "/src"

/-- Staged query subtree `languages/temp/<name>/queries`
(src/build.rs line 46). -/
def queriesSubtree (l : Language) : String := "languages/temp/" ++ l.name ++ "/queries"

/-- Canonical per-language directory `languages/<name>` (src/build.rs line 49). -/
def canonicalDir (l : Language) : String := "languages/" ++ l.name

/-- The command spawned by `Language::download` (src/build.rs lines 109-123):
with an override command, `sh -c <command>` verbatim; otherwise
`git clone <repo> languages/temp/<name>`. -/
def Language.downloadCmd (l : Language) : Cmd :=
  match l.command with
  | some override_command => ⟨"sh", ["-c", override_command]⟩
  | none => ⟨"git", ["clone", l.repo, stagingPath l]⟩

/-- Environment of one regeneration pass: whether each spawn succeeds, the
exit code each fetched process terminates with, and which staged paths
exist once the fetch for the owning language has completed.  All three are
indexed so that distinct languages are independent. -/
structure FetchWorld where
  spawnOk : String → Bool
  exitCode : String → Nat
  temp : String → Bool

/-- Events recorded by the fetch pass, in the order the driver performs
them. -/
inductive Ev
  | spawn (name : String)
  | wait (name : String) (code : Nat)
  | relocate (name : String)
deriving DecidableEq

/-- Behaviour of `fs_extra::copy_items` (called at src/build.rs line 52):
copying fails when any listed source path does not exist, and otherwise
copies every listed item into the destination. -/
def copyItems (tempFs : String → Bool) (srcs : List String) : Except String Unit :=
  if srcs.all tempFs then .ok () else .error "copy_items: source path not found"

/-- One iteration of the `try_for_each` body in `download_langs`
(src/build.rs lines 38-55) together with the spawn from the fused lazy
`map`: spawn the fetch (propagating a spawn failure through the first
question-mark operator), call `wait` -- whose `ExitStatus` result the
source drops on the floor, only an OS error from waiting being propagated
-- then create the canonical directory and relocate exactly the staged
`src` and `queries` subtrees into it with `copy_items`. -/
def fetchStep (w : FetchWorld) (l : Language) : Except String (List Ev) :=
  if w.spawnOk l.name then
    match copyItems w.temp [srcSubtree l, queriesSubtree l] with
    | .ok _ => .ok [.spawn l.name, .wait l.name (w.exitCode l.name), .relocate l.name]
    | .error e => .error e
  else .error "failed to spawn fetch process"

/-- The fetch pass over the whole language list (src/build.rs lines 32-60):
`try_for_each` runs the step for every language and propagates the first
error, aborting the pass; on success the traces are concatenated.  (The
surrounding wipe of `languages/` and removal of `languages/temp` are
modelled in the build-state transformer below.) -/
def download_langs (w : FetchWorld) : List Language → Except String (List Ev)
  | [] => .ok []
  | l :: rest =>
    match fetchStep w l with
    | .error e => .error e
    | .ok evs =>
      match download_langs w rest with
      | .error e => .error e
      | .ok evsRest => .ok (evs ++ evsRest)

/-- Boolean success of an `Except` value. -/
def exceptOk {α : Type} : Except String α → Bool
  | .ok _ => true
  | .error _ => false

/-! ## Native compiler (src/build.rs, `Language::compile`) -/

/-- One native static artifact produced by a `cc::Build::compile` call:
whether the C++ toolchain is selected, the optimization-level flag passed,
the include directory, the source files handed to the build, and the
output library name. -/
structure Artifact where
  cpp : Bool
  optLevel : Nat
  includeDir : String
  files : List String
  output : String
deriving DecidableEq

/-- What one `Language::compile` invocation does: the
`cargo:rerun-if-changed` registrations it prints and the artifacts it
compiles, in order. -/
structure CompileOutput where
  reruns : List String
  artifacts : List Artifact
deriving DecidableEq

/-- Canonical grammar-source directory `languages/<name>/src`
(src/build.rs line 126). -/
def srcDir (l : Language) : String := "languages/" ++ l.name ++ "/src"

/-- Path of the generated parser source, `parser_path` in the source
(src/build.rs line 133). -/
def parserPath (l : Language) : String := srcDir l ++ "/parser.c"

/-- Path of the plain C scanner variant (src/build.rs line 128). -/
def scannerC (l : Language) : String := srcDir l ++ "/scanner.c"

/-- Path of the C++ scanner variant (src/build.rs lines 128-129). -/
def scannerCC (l : Language) : String := srcDir l ++ "/scanner.cc"

/-- Translation of `Language::compile` (src/build.rs lines 125-164).
`has_scanner` and `scanner_is_cpp` probe file existence in the canonical
src directory; the main build uses the C toolchain with `-O1` and always
contains `parser.c`; a plain C scanner is added to the same build; a C++
scanner (which wins when both variants exist, since the first branch
requires `!scanner_is_cpp`) is compiled first as its own `-O2` C++
artifact `<name>-scanner`; finally the main build compiles as
`<name>-parser`.  Note that nothing checks that the canonical directory
exists: the function is invoked for every manifest language. -/
def Language.compile (ex : String → Bool) (l : Language) : CompileOutput :=
  let has_scanner := ex (scannerC l) || ex (scannerCC l)
  let scanner_is_cpp := ex (scannerCC l)
  if has_scanner && !scanner_is_cpp then
    { reruns := [parserPath l, scannerC l],
      artifacts := [⟨false, 1, srcDir l, [parserPath l, scannerC l], l.name ++ "-parser"⟩] }
  else if scanner_is_cpp then
    { reruns := [parserPath l, scannerCC l],
      artifacts := [⟨true, 2, srcDir l, [scannerCC l], l.name ++ "-scanner"⟩,
                    ⟨false, 1, srcDir l, [parserPath l], l.name ++ "-parser"⟩] }
  else
    { reruns := [parserPath l],
      artifacts := [⟨false, 1, srcDir l, [parserPath l], l.name ++ "-parser"⟩] }

/-- A toolchain invocation succeeds only when every source file it is
handed exists; `cc::Build::compile` on a missing input makes the build
script fail. -/
def artifactOk (ex : String → Bool) (a : Artifact) : Bool := a.files.all ex

/-- Whether compiling one language succeeds: every artifact it emits must
compile. -/
def compileOk (ex : String → Bool) (l : Language) : Bool :=
  (l.compile ex).artifacts.all (artifactOk ex)

/-- The compile phase of `main` (src/build.rs lines 25-27): `compile` is
invoked for every language of the manifest; the build succeeds only when
all of them do (a toolchain failure is fatal, rayon fail-fast). -/
def compilePhaseOk (ex : String → Bool) (langs : List Language) : Bool :=
  langs.all (compileOk ex)

/-! ## Module generator (src/build.rs, `Language::codegen` and
`generate_langs_module`) -/

/-- A filesystem: each path maps to the contents of the file there, or to
`none` when no file exists at that path.  `Path::exists` is `Option.isSome`. -/
def FS : Type := String → Option String

/-- Left brace as text. -/
def lb : String := "\x7b"

/-- Right brace as text. -/
def rb : String := "\x7d"

/-- The identifier derived from a language name by `codegen`
(src/build.rs line 167): hyphens replaced with underscores. -/
def nameIdent (l : Language) : String := l.name.replace "-" "_"

/-- Query-file path `languages/<name>/queries/<kind>.scm`
(src/build.rs lines 170-172). -/
def queryPath (l : Language) (kind : String) : String :=
  "languages/" ++ l.name ++ "/queries/" ++ kind ++ ".scm"

/-- The token emitted for one query constant (src/build.rs lines 174-187):
when the resource file does not exist, the literal `""`; when it exists,
an `include_str` invocation on the path. -/
inductive QueryTok
  | emptyLit
  | includeStr (path : String)
deriving DecidableEq

/-- The match on `Path::new(&path).exists()` in `codegen`. -/
def queryTok (fs : FS) (p : String) : QueryTok :=
  match (fs p).isSome with
  | false => .emptyLit
  | true => .includeStr p

/-- The string value the emitted constant denotes once the generated
module is compiled: `""` is the empty string and `include_str` embeds the
contents of the named file (rustc semantics of the macro). -/
def QueryTok.value (fs : FS) : QueryTok → String
  | .emptyLit => ""
  | .includeStr p => (fs p).getD ""

/-- The per-language generated module, by its varying parts: the
identifier and the three query tokens (src/build.rs lines 166-224). -/
structure GenModule where
  ident : String
  highlight : QueryTok
  injections : QueryTok
  locals : QueryTok
deriving DecidableEq

/-- The module `codegen` generates for a language: identifier from the
name, and the three tokens probed at `highlights.scm`, `injections.scm`
and `locals.scm` respectively. -/
def Language.genModule (fs : FS) (l : Language) : GenModule :=
  ⟨nameIdent l,
   queryTok fs (queryPath l "highlights"),
   queryTok fs (queryPath l "injections"),
   queryTok fs (queryPath l "locals")⟩

/-- Source text of a query token as spliced into the module template. -/
def renderQueryTok : QueryTok → String
  | .emptyLit => "\"\""
  | .includeStr p => String.join ["include_str!(\"../", p, "\")"]

/-- Rendering of the `formatdoc` module template (src/build.rs lines
190-224), dedented as `indoc` does, with the identifier and the three
query tokens spliced in. -/
def renderModule (m : GenModule) : String :=
  String.join [
    "pub mod ", m.ident, " ", lb, "\n",
    "    use tree_sitter::Language;\n",
    "    use tree_sitter_highlight::HighlightConfiguration;\n",
    "\n",
    "    extern \"C\" ", lb, "\n",
    "        pub fn tree_sitter_", m.ident, "() -> Language;\n",
    "    ", rb, "\n",
    "\n",
    "    pub fn config() -> HighlightConfiguration ", lb, "\n",
    "        HighlightConfiguration::new(\n",
    "            unsafe ", lb, " tree_sitter_", m.ident, "() ", rb, ",\n",
    "            HIGHLIGHT_QUERY,\n",
    "            INJECTIONS_QUERY,\n",
    "            LOCALS_QUERY,\n",
    "        ).unwrap()\n",
    "    ", rb, "\n",
    "\n",
    "    pub const HIGHLIGHT_QUERY: &str = ", renderQueryTok m.highlight, ";\n",
    "    pub const INJECTIONS_QUERY: &str = ", renderQueryTok m.injections, ";\n",
    "    pub const LOCALS_QUERY: &str = ", renderQueryTok m.locals, ";\n",
    "\n",
    "    #[cfg(test)]\n",
    "    mod tests ", lb, "\n",
    "        #[test]\n",
    "        fn grammar_loading() ", lb, "\n",
    "            let mut parser = tree_sitter::Parser::new();\n",
    "            parser\n",
    "                .set_language(unsafe ", lb, " super::tree_sitter_", m.ident, "() ", rb, ")\n",
    "                .expect(\"Grammar should load successfully.\");\n",
    "        ", rb, "\n",
    "    ", rb, "\n",
    rb, "\n",
    "\n"
  ]

/-- The factory-reference string `codegen` inserts as the value of every
map entry for a language (src/build.rs line 226). -/
def generatedConfig (l : Language) : String :=
  String.join [nameIdent l,
    "::config as fn() -> tree_sitter_highlight::HighlightConfiguration"]

/-- The map entries `codegen` appends for one language (src/build.rs
lines 228-232): first the primary name, then every alias in order, all
mapping to the same factory reference. -/
def Language.mapEntries (l : Language) : List (String × String) :=
  (l.name, generatedConfig l) :: l.aliases.map (fun a => (a, generatedConfig l))

/-- All entries accumulated into the single shared builder, in manifest
order (src/build.rs lines 71-73). -/
def allEntries : List Language → List (String × String)
  | [] => []
  | l :: rest => l.mapEntries ++ allEntries rest

/-- Rendering of one finalized map entry. -/
def renderMapEntry (e : String × String) : String :=
  String.join ["    \"", e.1, "\" => ", e.2, ",\n"]

/-- Rendering of `map.build()` (src/build.rs line 87).  The phf_codegen
builder is a pure, deterministic function of the ordered entry list (its
generator is seeded with a fixed constant), which is the only property
the development relies on; the rendering here lists the entries in
insertion order. -/
def renderMap (entries : List (String × String)) : String :=
  String.join ["::phf::Map ", lb, "\n", String.join (entries.map renderMapEntry), rb]

/-- The fixed module header (src/build.rs lines 63-67). -/
def moduleHeader : String :=
  String.join [
    "#![allow(dead_code)]\n",
    "#![allow(clippy::items_after_test_module)]\n",
    "// This module is automatically generated by Inkjet.\n",
    "\n"
  ]

/-- `generate_langs_module` (src/build.rs lines 62-91): the header, then
each generated module in manifest order, then the static `LANG_MAP`
declaration holding the finalized table.  The output is a pure function
of the manifest and of which query files exist. -/
def generate_langs_module (fs : FS) (langs : List Language) : String :=
  String.join [
    moduleHeader,
    String.join (langs.map (fun l => renderModule (l.genModule fs))),
    "pub static LANG_MAP: phf::Map<&\x27static str, fn() -> tree_sitter_highlight::HighlightConfiguration> = \n",
    renderMap (allEntries langs),
    ";\n"
  ]

/-! ## The build driver (src/build.rs, `main`) -/

/-- The three phases `main` can run, in the order it runs them
(src/build.rs lines 16-30). -/
inductive Phase
  | fetch
  | generate
  | compilePhase
deriving DecidableEq

/-- The phase list of `main` (src/build.rs lines 20-27): when the
`INKJET_REBUILD_LANGS` environment variable is set, `download_langs` then
`generate_langs_module` then the parallel compile loop; when it is
absent, only the compile loop. -/
def mainPhases (rebuildEnvSet : Bool) : List Phase :=
  if rebuildEnvSet then [.fetch, .generate, .compilePhase] else [.compilePhase]

/-- Observable build state threaded through the phases: the canonical
`languages/` tree, the generated registry file `src/languages.rs`, and
the native artifacts under the cargo output directory. -/
structure BuildState where
  canonical : FS
  registry : String
  artifacts : List Artifact

/-- Ambient inputs of one build: the regeneration switch, the manifest,
and the `languages/` tree a fetch pass would leave behind (the fetch
wipes the old tree first, so the result does not depend on the previous
canonical state). -/
structure BuildWorld where
  rebuildEnvSet : Bool
  langs : List Language
  fetched : FS

/-- Existence probe of a filesystem. -/
def fsExists (fs : FS) (p : String) : Bool := (fs p).isSome

/-- Effect of one phase on the build state.  The fetch pass rewrites the
canonical tree (wipe plus relocation, src/build.rs lines 32-60); the
generator writes only `src/languages.rs` from the manifest and the
canonical tree (lines 62-91); the compile loop writes only native
artifacts and reads the canonical tree (lines 25-27 and 125-164). -/
def runPhase (w : BuildWorld) (s : BuildState) : Phase → BuildState
  | .fetch => { s with canonical := w.fetched }
  | .generate => { s with registry := generate_langs_module s.canonical w.langs }
  | .compilePhase =>
      { s with artifacts :=
          (w.langs.map (fun l => (l.compile (fsExists s.canonical)).artifacts)).flatten }

/-- `main` as a state transformer: fold the phase list over the state. -/
def runMain (w : BuildWorld) (s : BuildState) : BuildState :=
  (mainPhases w.rebuildEnvSet).foldl (runPhase w) s

/-! ## Fetch scheduling (src/build.rs lines 36-42) -/

/-- Spawn and await events of the fetch fan-out. -/
inductive FEv
  | spawned (name : String)
  | awaited (name : String)
deriving DecidableEq

/-- Whether an event is a spawn. -/
def FEv.isSpawn : FEv → Bool
  | .spawned _ => true
  | .awaited _ => false

/-- A one-worker schedule of
`languages.par_iter().map(|lang| (lang.download(), lang)).try_for_each(..)`
(src/build.rs lines 36-42).  The rayon `map` adapter is lazy: no
intermediate collection of child handles is built, so each item runs its
`map` closure (the spawn) immediately before the `try_for_each` body
consumes it (the await).  With one worker thread -- a schedule rayon may
choose -- the items are processed in order, giving this event trace. -/
def fetchTraceSeq : List Language → List FEv
  | [] => []
  | l :: rest => .spawned l.name :: .awaited l.name :: fetchTraceSeq rest

/-- Whether a trace consists of spawns followed only by non-spawn events,
i.e. every spawn happens before any await. -/
def allSpawnsFirst (tr : List FEv) : Bool :=
  (tr.dropWhile FEv.isSpawn).all (fun e => !e.isSpawn)

/-! ## Concrete sample data for witnesses and counterexamples -/

/-- The lookup keys a language contributes: primary name then aliases. -/
def Language.keys (l : Language) : List String := l.name :: l.aliases

/-- The end-to-end sample descriptor of spec section 8. -/
def fooLang : Language := ⟨"foo", "https://example/foo", ["fbar"], none⟩

/-- A second sample descriptor with disjoint keys. -/
def barLang : Language := ⟨"bar", "https://example/bar", [], none⟩

/-- A sample descriptor carrying a custom fetch command. -/
def cmdLang : Language := ⟨"mk", "https://example/mk", [], some "make fetch"⟩

/-- A fetch environment in which every spawn succeeds, every fetched
process exits with status 1, and every staged path exists (as a custom
command that stages its output and then fails would leave things). -/
def failExitWorld : FetchWorld := ⟨fun _ => true, fun _ => 1, fun _ => true⟩

/-- A fetch environment in which every spawn succeeds and exits cleanly
but no staged path exists. -/
def emptyTempWorld : FetchWorld := ⟨fun _ => true, fun _ => 0, fun _ => false⟩

/-- An existence probe for an empty filesystem. -/
def noFile : String → Bool := fun _ => false

/-- An existence probe of a canonical tree holding only the C++ scanner
variant for `foo` (plus its parser source). -/
def cppScanProbe : String → Bool :=
  fun p => p == "languages/foo/src/parser.c" || p == "languages/foo/src/scanner.cc"

/-- A filesystem holding one highlight-query file for `foo`. -/
def fooHighlightFs : FS :=
  fun p => if p == "languages/foo/queries/highlights.scm"
           then some "(comment) @comment" else none

/-- The empty filesystem. -/
def emptyFs : FS := fun _ => none

/-- A sample initial build state. -/
def initState : BuildState := ⟨emptyFs, "", []⟩

/-- A sample build world with the regeneration switch absent. -/
def plainWorld : BuildWorld := ⟨false, [fooLang], emptyFs⟩

/-! ## Helper lemmas -/

/-- One fetch step succeeds exactly when its spawn succeeds and both
staged subtrees exist afterwards; the exit status plays no role. -/
theorem fetchStep_exceptOk (w : FetchWorld) (l : Language) :
    exceptOk (fetchStep w l)
      = (w.spawnOk l.name && (w.temp (srcSubtree l) && w.temp (queriesSubtree l))) := by
  unfold fetchStep copyItems
  cases h1 : w.spawnOk l.name
  · simp [h1, exceptOk]
  · cases h2 : w.temp (srcSubtree l) <;> cases h3 : w.temp (queriesSubtree l) <;>
      simp [h1, h2, h3, exceptOk]

/-- The fetch pass succeeds exactly when every language spawns and stages
both subtrees; exit codes are not consulted. -/
theorem download_langs_exceptOk (w : FetchWorld) :
    ∀ langs : List Language,
      exceptOk (download_langs w langs)
        = langs.all (fun l => w.spawnOk l.name
            && (w.temp (srcSubtree l) && w.temp (queriesSubtree l)))
  | [] => rfl
  | l :: rest => by
    have ih := download_langs_exceptOk w rest
    have hs := fetchStep_exceptOk w l
    unfold download_langs
    cases hfs : fetchStep w l with
    | error e =>
        rw [hfs] at hs
        simp [exceptOk, List.all_cons, ← hs]
    | ok evs =>
        rw [hfs] at hs
        cases hdl : download_langs w rest with
        | error e2 =>
            rw [hdl] at ih
            simp [exceptOk, List.all_cons, ← hs, ← ih]
        | ok evsRest =>
            rw [hdl] at ih
            simp [exceptOk, List.all_cons, ← hs, ← ih]

/-! ## Claim C1 -/

/-- Claim C1, counterexample: in an environment where the fetch for `foo`
terminates with exit status 1 but has staged both subtrees (as a custom
command that stages its output and then fails would), the pass does not
abort: the exit status is dropped by `child?.wait()?` (src/build.rs line
42), relocation for `foo` is performed, and the pass succeeds — contrary
to the claim that a non-zero exit aborts the pass before any relocation. -/
theorem C1_counterexample :
    failExitWorld.exitCode "foo" ≠ 0
    ∧ download_langs failExitWorld [fooLang]
        = .ok [.spawn "foo", .wait "foo" 1, .relocate "foo"] := by
  exact ⟨by decide, rfl⟩

/-- Claim C1, amended: the exit status of a fetched process is ignored
(`wait` only propagates OS errors); the regeneration pass aborts exactly
when some spawn fails or some language is missing a staged `src` or
`queries` subtree after its fetch — the usual consequence of a failed
fetch — in which case the relocation error propagates with no retry.
Formally, success of the pass is a function of the spawn outcomes and the
staged subtrees alone, with the exit codes absent from the right-hand
side. -/
theorem C1_exit_status_ignored (w : FetchWorld) (langs : List Language) :
    exceptOk (download_langs w langs)
      = langs.all (fun l => w.spawnOk l.name
          && (w.temp (srcSubtree l) && w.temp (queriesSubtree l))) :=
  download_langs_exceptOk w langs

/-! ## Claim C2 -/

/-- Claim C2, counterexample: a manifest entry carrying a custom
`command` but no `repo` is rejected by deserialization, because the
`repo` field of `struct Language` (src/build.rs line 102) is a plain
required `String` — contrary to the claim that such an entry is
accepted. -/
theorem C2_counterexample :
    parseLanguage ⟨some "foo", none, none, some "make fetch"⟩
      = .error "missing field repo" := rfl

/-- Claim C2, amended: the loader requires `name` and `repo`
unconditionally — supplying `command` does not lift the `repo`
requirement.  An entry parses exactly when both `name` and `repo` are
present, in which case aliases default to empty and `command` is kept as
given; an entry lacking `name` or lacking `repo` fails with a parse
error. -/
theorem C2_repo_required (e : RawEntry) :
    ((∃ l, parseLanguage e = .ok l) ↔ (e.name.isSome = true ∧ e.repo.isSome = true))
    ∧ (∀ n r, e.name = some n → e.repo = some r →
        parseLanguage e = .ok ⟨n, r, e.aliases.getD [], e.command⟩) := by
  obtain ⟨n, r, al, c⟩ := e
  cases n <;> cases r <;> simp [parseLanguage]

/-- Witness for the amended Claim C2 at a concrete entry that has both a
`repo` and a `command`. -/
theorem C2_repo_required_witness :
    parseLanguage ⟨some "foo", some "https://example/foo", none, some "make fetch"⟩
      = .ok ⟨"foo", "https://example/foo", [], some "make fetch"⟩ :=
  (C2_repo_required ⟨some "foo", some "https://example/foo", none, some "make fetch"⟩).2
    "foo" "https://example/foo" rfl rfl

/-! ## Claim C3 -/

/-- Claim C3, counterexample: for a language whose canonical directory
does not exist (the empty filesystem), `Language::compile` is still
invoked and still hands the toolchain a grammar artifact referencing the
missing `parser.c`, and the compile phase fails — contrary to the claim
that such a language is not compiled and does not fail the build. -/
theorem C3_counterexample :
    noFile (srcDir fooLang) = false
    ∧ (Language.compile noFile fooLang).artifacts ≠ []
    ∧ compilePhaseOk noFile [fooLang] = false := by
  refine ⟨rfl, by decide, by decide⟩

/-- Claim C3, amended: the compile phase invokes `compile` for every
manifest language unconditionally — nothing probes whether the canonical
directory exists, and every invocation emits a `<name>-parser` artifact
— and when `parser.c` is absent from the canonical src directory the
toolchain invocation fails, which fails the whole build (rather than the
language being skipped). -/
theorem C3_compile_always_attempted (ex : String → Bool) (l : Language)
    (langs : List Language) :
    (∃ a, a ∈ (l.compile ex).artifacts ∧ a.output = l.name ++ "-parser")
    ∧ (ex (parserPath l) = false → compileOk ex l = false)
    ∧ (l ∈ langs → compileOk ex l = false → compilePhaseOk ex langs = false) := by
  refine ⟨?_, fun hp => ?_, fun hm hc => ?_⟩
  · cases h1 : ex (scannerC l) <;> cases h2 : ex (scannerCC l) <;>
      simp [Language.compile, h1, h2]
  · cases h1 : ex (scannerC l) <;> cases h2 : ex (scannerCC l) <;>
      simp [compileOk, artifactOk, Language.compile, h1, h2, hp]
  · cases hA : langs.all (compileOk ex)
    · exact hA
    · exact absurd (List.all_eq_true.mp hA l hm) (by simp [hc])

/-- Witness for the amended Claim C3: the sample language `bar` over the
empty filesystem is attempted and fails the build. -/
theorem C3_compile_always_attempted_witness :
    compilePhaseOk noFile [barLang] = false := by
  have h := C3_compile_always_attempted noFile barLang [barLang]
  exact h.2.2 (List.Mem.head _) (h.2.1 rfl)

/-! ## Claim C4 -/

/-- Claim C4: scanner detection and compilation policy.  With neither
scanner file, the grammar is compiled alone into one C artifact at `-O1`;
with only the plain C scanner, grammar and scanner are compiled together
into that same single artifact under the same C toolchain at `-O1`; with
the C++ scanner present — including when both variants exist, the first
branch requiring `!scanner_is_cpp` — the scanner is compiled separately
as its own `<name>-scanner` artifact under the C++ toolchain at `-O2`,
and the grammar alone as the second `<name>-parser` artifact. -/
theorem C4_scanner_policy (ex : String → Bool) (l : Language) :
    (ex (scannerC l) = false → ex (scannerCC l) = false →
      (l.compile ex).artifacts
        = [⟨false, 1, srcDir l, [parserPath l], l.name ++ "-parser"⟩])
    ∧ (ex (scannerC l) = true → ex (scannerCC l) = false →
      (l.compile ex).artifacts
        = [⟨false, 1, srcDir l, [parserPath l, scannerC l], l.name ++ "-parser"⟩])
    ∧ (ex (scannerCC l) = true →
      (l.compile ex).artifacts
        = [⟨true, 2, srcDir l, [scannerCC l], l.name ++ "-scanner"⟩,
           ⟨false, 1, srcDir l, [parserPath l], l.name ++ "-parser"⟩]) := by
  refine ⟨fun h1 h2 => ?_, fun h1 h2 => ?_, fun h2 => ?_⟩
  · simp [Language.compile, h1, h2]
  · simp [Language.compile, h1, h2]
  · cases h1 : ex (scannerC l) <;> simp [Language.compile, h1, h2]

/-- Witness for Claim C4 at a concrete canonical tree holding the C++
scanner variant for `foo`. -/
theorem C4_scanner_policy_witness :
    (Language.compile cppScanProbe fooLang).artifacts
      = [⟨true, 2, srcDir fooLang, [scannerCC fooLang], fooLang.name ++ "-scanner"⟩,
         ⟨false, 1, srcDir fooLang, [parserPath fooLang], fooLang.name ++ "-parser"⟩] :=
  (C4_scanner_policy cppScanProbe fooLang).2.2 (by decide)

/-! ## Claim C5 -/

/-- Association lookup distributes over append, preferring the left
list. -/
theorem lookupAppend (k : String) (xs ys : List (String × String)) :
    List.lookup k (xs ++ ys)
      = match List.lookup k xs with
        | some v => some v
        | none => List.lookup k ys := by
  induction xs with
  | nil => rfl
  | cons p rest ih =>
      obtain ⟨a, b⟩ := p
      cases hk : (k == a) <;> simp [List.lookup, hk, ih]

/-- Lookup in the alias block of one language: every entry carries the
same factory reference, so any member key resolves to it. -/
theorem lookupAliasMap (g : String) :
    ∀ (as : List String) (k : String), k ∈ as →
      List.lookup k (as.map (fun a => (a, g))) = some g
  | [], _, h => absurd h (List.not_mem_nil _)
  | a :: rest, k, h => by
      cases hbe : (k == a) with
      | true => simp [List.lookup, hbe]
      | false =>
        have hk : k ≠ a := fun he => by simp [he] at hbe
        have hr : k ∈ rest := by
          rcases List.mem_cons.mp h with h1 | h1
          · exact absurd h1 hk
          · exact h1
        simp [List.lookup, hbe, lookupAliasMap g rest k hr]

/-- Lookup in the alias block of one language misses when the key is not
an alias. -/
theorem lookupAliasMapNone (g : String) :
    ∀ (as : List String) (k : String), k ∉ as →
      List.lookup k (as.map (fun a => (a, g))) = none
  | [], _, _ => rfl
  | a :: rest, k, h => by
      have hk : k ≠ a := fun he => h (he ▸ List.Mem.head _)
      have hr : k ∉ rest := fun he => h (List.mem_cons_of_mem _ he)
      have hbe : (k == a) = false := by
        cases hbe : (k == a)
        · rfl
        · exact absurd (eq_of_beq hbe) hk
      simp [List.lookup, hbe, lookupAliasMapNone g rest k hr]

/-- A key of a language resolves, within that language's own entry
block, to that language's factory reference. -/
theorem lookupMapEntriesSelf (l : Language) (k : String) (hk : k ∈ l.keys) :
    List.lookup k l.mapEntries = some (generatedConfig l) := by
  cases hbe : (k == l.name) with
  | true => simp [Language.mapEntries, List.lookup, hbe]
  | false =>
    have hn : k ≠ l.name := fun he => by simp [he] at hbe
    have ha : k ∈ l.aliases := by
      rcases List.mem_cons.mp hk with h1 | h1
      · exact absurd h1 hn
      · exact h1
    simp [Language.mapEntries, List.lookup, hbe,
      lookupAliasMap (generatedConfig l) l.aliases k ha]

/-- A key that is neither the name nor an alias of a language misses its
entry block entirely. -/
theorem lookupMapEntriesNone (l' : Language) (k : String) (hk : k ∉ l'.keys) :
    List.lookup k l'.mapEntries = none := by
  have hn : k ≠ l'.name := fun he => hk (he ▸ List.Mem.head _)
  have ha : k ∉ l'.aliases := fun he => hk (List.mem_cons_of_mem _ he)
  have hbe : (k == l'.name) = false := by
    cases hbe : (k == l'.name)
    · rfl
    · exact absurd (eq_of_beq hbe) hn
  simp [Language.mapEntries, List.lookup, hbe,
    lookupAliasMapNone (generatedConfig l') l'.aliases k ha]

/-- Claim C5: for a language whose keys collide with no other language
of the manifest, the accumulated mapping resolves its primary name and
each of its aliases to that language's factory reference. -/
theorem C5_lookup_resolves (langs : List Language) (l : Language) (k : String)
    (hdisj : ∀ l' ∈ langs, l' = l ∨ ∀ k' ∈ l.keys, k' ∉ l'.keys)
    (hl : l ∈ langs) (hk : k ∈ l.keys) :
    List.lookup k (allEntries langs) = some (generatedConfig l) := by
  induction langs with
  | nil => exact absurd hl (List.not_mem_nil l)
  | cons hd rest ih =>
      have hstep : allEntries (hd :: rest) = hd.mapEntries ++ allEntries rest := rfl
      rw [hstep, lookupAppend]
      rcases hdisj hd (List.Mem.head _) with rfl | hdis
      · rw [lookupMapEntriesSelf hd k hk]
      · have hnot : k ∉ hd.keys := hdis k hk
        rw [lookupMapEntriesNone hd k hnot]
        have hlr : l ∈ rest := by
          rcases List.mem_cons.mp hl with rfl | hr
          · exact absurd hk (hdis k hk)
          · exact hr
        exact ih (fun l' hl' => hdisj l' (List.mem_cons_of_mem _ hl')) hlr

/-- Witness for Claim C5: in the two-language manifest `foo` (alias
`fbar`) and `bar`, the alias `fbar` resolves to the factory reference of
`foo`. -/
theorem C5_lookup_resolves_witness :
    List.lookup "fbar" (allEntries [fooLang, barLang])
      = some (generatedConfig fooLang) :=
  C5_lookup_resolves [fooLang, barLang] fooLang "fbar"
    (by decide) (by decide) (by decide)

/-! ## Claim C6 -/

/-- The value of an emitted query constant: file contents when the file
exists, the empty string when it does not. -/
theorem queryTokValue (fs : FS) (p : String) :
    (∀ c, fs p = some c → (queryTok fs p).value fs = c)
    ∧ (fs p = none → (queryTok fs p).value fs = "") := by
  cases h : fs p <;> simp [queryTok, h, QueryTok.value]

/-- Claim C6: for every language and independently for each of the three
query kinds, the generated module's query-text constant denotes the
contents of `languages/<name>/queries/<kind>.scm` when that file exists,
and the empty string when it does not. -/
theorem C6_query_constants (fs : FS) (l : Language) :
    (∀ c, fs (queryPath l "highlights") = some c →
       (l.genModule fs).highlight.value fs = c)
    ∧ (fs (queryPath l "highlights") = none →
       (l.genModule fs).highlight.value fs = "")
    ∧ (∀ c, fs (queryPath l "injections") = some c →
       (l.genModule fs).injections.value fs = c)
    ∧ (fs (queryPath l "injections") = none →
       (l.genModule fs).injections.value fs = "")
    ∧ (∀ c, fs (queryPath l "locals") = some c →
       (l.genModule fs).locals.value fs = c)
    ∧ (fs (queryPath l "locals") = none →
       (l.genModule fs).locals.value fs = "") := by
  refine ⟨?_, ?_, ?_, ?_, ?_, ?_⟩ <;> simp only [Language.genModule]
  · exact (queryTokValue fs _).1
  · exact (queryTokValue fs _).2
  · exact (queryTokValue fs _).1
  · exact (queryTokValue fs _).2
  · exact (queryTokValue fs _).1
  · exact (queryTokValue fs _).2

/-- Witness for Claim C6: over a filesystem holding only a highlight
query for `foo`, the highlight constant denotes its contents and the
locals constant denotes the empty string. -/
theorem C6_query_constants_witness :
    (fooLang.genModule fooHighlightFs).highlight.value fooHighlightFs
      = "(comment) @comment"
    ∧ (fooLang.genModule fooHighlightFs).locals.value fooHighlightFs = "" := by
  have h := C6_query_constants fooHighlightFs fooLang
  exact ⟨h.1 "(comment) @comment" (by decide), h.2.2.2.2.2 (by decide)⟩

/-! ## Claim C7 -/

/-- Claim C7: module generation is a pure function of the manifest and
of which query files exist in the canonical directories — on unchanged
input the generated output is byte-identical, with no timestamps and no
nondeterministic ordering.  Stated as extensionality: any two
filesystems agreeing on query-file existence for the manifest languages
generate identical output. -/
theorem C7_generation_deterministic (langs : List Language) (fs1 fs2 : FS)
    (h : ∀ l ∈ langs, ∀ kind : String,
        (fs1 (queryPath l kind)).isSome = (fs2 (queryPath l kind)).isSome) :
    generate_langs_module fs1 langs = generate_langs_module fs2 langs := by
  unfold generate_langs_module
  have hmap : langs.map (fun l => renderModule (l.genModule fs1))
      = langs.map (fun l => renderModule (l.genModule fs2)) := by
    apply List.map_congr_left
    intro l hl
    have e1 := h l hl "highlights"
    have e2 := h l hl "injections"
    have e3 := h l hl "locals"
    unfold Language.genModule queryTok
    rw [e1, e2, e3]
  rw [hmap]

/-- Witness for Claim C7: running generation twice against the same
manifest and the same canonical state yields identical bytes. -/
theorem C7_generation_deterministic_witness :
    generate_langs_module emptyFs [fooLang]
      = generate_langs_module emptyFs [fooLang] :=
  C7_generation_deterministic [fooLang] emptyFs emptyFs (fun _ _ _ => rfl)

/-! ## Claim C8 -/

/-- Claim C8: with the regeneration environment variable absent, the
build runs only the compile phase and leaves the canonical tree and the
generated registry file unchanged; with it present, the build runs the
fetch phase, then generation, then compilation, in that order. -/
theorem C8_regeneration_switch (w : BuildWorld) (s : BuildState) :
    (w.rebuildEnvSet = false →
       mainPhases w.rebuildEnvSet = [.compilePhase]
       ∧ (runMain w s).canonical = s.canonical
       ∧ (runMain w s).registry = s.registry)
    ∧ (w.rebuildEnvSet = true →
       mainPhases w.rebuildEnvSet = [.fetch, .generate, .compilePhase]) := by
  constructor
  · intro hf
    refine ⟨by simp [mainPhases, hf], ?_, ?_⟩ <;>
      simp [runMain, mainPhases, hf, runPhase]
  · intro ht
    simp [mainPhases, ht]

/-- Witness for Claim C8 at a concrete build world with the switch
absent. -/
theorem C8_regeneration_switch_witness :
    mainPhases plainWorld.rebuildEnvSet = [Phase.compilePhase]
    ∧ (runMain plainWorld initState).canonical = initState.canonical
    ∧ (runMain plainWorld initState).registry = initState.registry :=
  (C8_regeneration_switch plainWorld initState).1 rfl

/-! ## Claim C9 -/

/-- The fetch trace interleaves, per language, a spawn immediately
followed by its await: rayon fuses the lazy `map` closure with the
`try_for_each` body. -/
theorem fetchTraceSeqFlatMap : ∀ langs : List Language,
    fetchTraceSeq langs
      = langs.flatMap (fun l => [FEv.spawned l.name, FEv.awaited l.name])
  | [] => rfl
  | l :: rest => by simp [fetchTraceSeq, fetchTraceSeqFlatMap rest]

/-- Claim C9, counterexample: on the one-worker schedule of the fused
pipeline with two languages, the first fetch is awaited before the
second is spawned, so it is not the case that all fetches are spawned
before any is awaited. -/
theorem C9_counterexample :
    fetchTraceSeq [fooLang, barLang]
      = [.spawned "foo", .awaited "foo", .spawned "bar", .awaited "bar"]
    ∧ allSpawnsFirst (fetchTraceSeq [fooLang, barLang]) = false :=
  ⟨rfl, by decide⟩

/-- Claim C9, amended: the `map` producing the child handles is a lazy
rayon adapter that is fused with the `try_for_each` consumer, so each
fetch is spawned immediately before it is awaited within its own task;
no collection of not-yet-awaited handles is built, and with at least two
languages the one-worker schedule awaits a fetch before spawning the
next, so the pass does not guarantee that all spawns precede all awaits
(the slowest-fetch latency bound holds only when the thread pool happens
to run all fetches concurrently). -/
theorem C9_spawn_await_fused (langs : List Language) (h : 2 ≤ langs.length) :
    fetchTraceSeq langs
      = langs.flatMap (fun l => [FEv.spawned l.name, FEv.awaited l.name])
    ∧ allSpawnsFirst (fetchTraceSeq langs) = false := by
  refine ⟨fetchTraceSeqFlatMap langs, ?_⟩
  cases langs with
  | nil => simp at h
  | cons a t =>
      cases t with
      | nil => simp at h
      | cons b rest =>
          simp [fetchTraceSeq, allSpawnsFirst, List.dropWhile, FEv.isSpawn]

/-- Witness for the amended Claim C9 at the two-language manifest. -/
theorem C9_spawn_await_fused_witness :
    fetchTraceSeq [fooLang, barLang]
      = [fooLang, barLang].flatMap
          (fun l => [FEv.spawned l.name, FEv.awaited l.name])
    ∧ allSpawnsFirst (fetchTraceSeq [fooLang, barLang]) = false :=
  C9_spawn_await_fused [fooLang, barLang] (by decide)

/-! ## Claim C10 -/

/-- Claim C10: relocation is uniform across fetch strategies.  A custom
fetch command is run verbatim through `sh -c` with no staging path
argument; on a successful spawn the pass relocates exactly the staged
`src` and `queries` subtrees into the canonical directory; if either
subtree is absent after the fetch, the step fails, and a failing step
anywhere in the manifest fails the whole pass. -/
theorem C10_relocation_uniform (w : FetchWorld) (l : Language)
    (langs : List Language) :
    (∀ c, l.command = some c → l.downloadCmd = ⟨"sh", ["-c", c]⟩)
    ∧ (w.spawnOk l.name = true → w.temp (srcSubtree l) = true →
        w.temp (queriesSubtree l) = true →
        fetchStep w l
          = .ok [.spawn l.name, .wait l.name (w.exitCode l.name), .relocate l.name])
    ∧ ((w.temp (srcSubtree l) = false ∨ w.temp (queriesSubtree l) = false) →
        exceptOk (fetchStep w l) = false)
    ∧ (l ∈ langs → exceptOk (fetchStep w l) = false →
        exceptOk (download_langs w langs) = false) := by
  refine ⟨fun c hc => ?_, fun h1 h2 h3 => ?_, fun hmiss => ?_, fun hm hf => ?_⟩
  · simp [Language.downloadCmd, hc]
  · simp [fetchStep, copyItems, h1, h2, h3]
  · rw [fetchStep_exceptOk]
    rcases hmiss with hmi | hmi <;> simp [hmi]
  · rw [download_langs_exceptOk]
    rw [fetchStep_exceptOk] at hf
    cases hA : langs.all (fun l => w.spawnOk l.name
        && (w.temp (srcSubtree l) && w.temp (queriesSubtree l)))
    · rfl
    · exact absurd (List.all_eq_true.mp hA l hm) (by simp [hf])

/-- Witness for Claim C10: the custom-command language over an
environment that stages nothing; its command line is `sh -c` verbatim
and the pass aborts at relocation. -/
theorem C10_relocation_uniform_witness :
    Language.downloadCmd cmdLang = ⟨"sh", ["-c", "make fetch"]⟩
    ∧ exceptOk (download_langs emptyTempWorld [cmdLang]) = false := by
  have h := C10_relocation_uniform emptyTempWorld cmdLang [cmdLang]
  exact ⟨h.1 "make fetch" rfl, h.2.2.2 (List.Mem.head _) (h.2.2.1 (Or.inl rfl))⟩

end Inkjet
